import Mathlib

/-!
Verification of the appointment-scheduler pipeline
(`src/using_langgraph/project.py` — the core pipeline the spec describes).

The Python functions are shallowly embedded as executable Lean functions:
`datetime.strptime` (for the fixed formats the code uses) is modelled by a
small backtracking matcher with CPython's directive regexes and its
construction-time validity checks; timezone-aware datetimes are modelled as
instants (seconds on an absolute timeline, `toOrdinal`-based), since under a
fixed local offset Python's aware datetimes are order- and
arithmetic-isomorphic to instants; pipeline stages are state transformers
with external effects (LLM call, Google auth, calendar insert) supplied as
explicit outcome parameters.
-/

namespace Sched

/-! ## Python character / string helpers -/

/-- Python `\s` and `str.strip()` whitespace (ASCII range used by the data). -/
def pyIsSpace (c : Char) : Bool :=
  c == ' ' || c == '\t' || c == '\n' || c == '\r' || c == '\x0b' || c == '\x0c'

/-- `str.strip()` on a character list. -/
def stripChars (cs : List Char) : List Char :=
  ((cs.dropWhile pyIsSpace).reverse.dropWhile pyIsSpace).reverse

/-- `str.strip()`. -/
def pyStrip (s : String) : String := String.mk (stripChars s.data)

/-- Does `cs` start with the pattern `pat` (exact characters)? -/
def startsWithPat : List Char → List Char → Bool
  | [], _ => true
  | _ :: _, [] => false
  | p :: ps, c :: cs => p == c && startsWithPat ps cs

/-- Python `pat in s` for a non-empty pattern: `pat` occurs as a contiguous
substring of `cs`. -/
def listHasSub (pat : List Char) : List Char → Bool
  | [] => startsWithPat pat []
  | c :: cs => startsWithPat pat (c :: cs) || listHasSub pat cs

/-- Python `s.split("-")`: split at every hyphen, keeping empty pieces. -/
def splitOnDash : List Char → List (List Char)
  | [] => [[]]
  | c :: rest =>
    if c == '-' then [] :: splitOnDash rest
    else
      match splitOnDash rest with
      | g :: gs => (c :: g) :: gs
      | [] => [[c]]

/-- Digit run to a number (`int()` on a `\d+` capture). -/
def natOfDigits (cs : List Char) : Nat :=
  cs.foldl (fun a c => a * 10 + (c.toNat - '0'.toNat)) 0

/-! ## Proleptic Gregorian calendar (CPython `datetime`) -/

def isLeap (y : Nat) : Bool :=
  (y % 4 == 0 && y % 100 != 0) || y % 400 == 0

def daysInMonth (y m : Nat) : Nat :=
  if m == 2 then (if isLeap y then 29 else 28)
  else if m == 4 || m == 6 || m == 9 || m == 11 then 30
  else 31

/-- A Python `date` (the `datetime` components the code actually uses). -/
structure PyDate where
  year : Nat
  month : Nat
  day : Nat
deriving DecidableEq, Repr

/-- Python `date` comparison (component-lexicographic, as CPython compares). -/
def dateLt (a b : PyDate) : Bool :=
  a.year < b.year ||
    (a.year == b.year && (a.month < b.month ||
      (a.month == b.month && a.day < b.day)))

def daysBeforeMonth (y m : Nat) : Nat :=
  (List.range (m - 1)).foldl (fun a i => a + daysInMonth y (i + 1)) 0

/-- CPython `date.toordinal`: day 1 = 0001-01-01. -/
def toOrdinal (d : PyDate) : Nat :=
  365 * (d.year - 1) + (d.year - 1) / 4 - (d.year - 1) / 100 + (d.year - 1) / 400
    + daysBeforeMonth d.year d.month + d.day

/-- Civil date from a day count relative to 1970-01-01 (Hinnant's algorithm). -/
def civilFromDays (z0 : Int) : Int × Nat × Nat :=
  let z := z0 + 719468
  let era := Int.fdiv z 146097
  let doe := (z - era * 146097).toNat
  let yoe := (doe - doe / 1460 + doe / 36524 - doe / 146096) / 365
  let doy := doe - (365 * yoe + yoe / 4 - yoe / 100)
  let mp := (5 * doy + 2) / 153
  let d := doy - (153 * mp + 2) / 5 + 1
  let m := if mp < 10 then mp + 3 else mp - 9
  (era * 400 + yoe + (if m ≤ 2 then 1 else 0), m, d)

/-- Civil date of a `toOrdinal`-scale day number (1970-01-01 has ordinal 719163). -/
def civilOfOrdinalDay (n : Int) : PyDate :=
  let (y, m, d) := civilFromDays (n - 719163)
  ⟨y.toNat, m, d⟩

/-! ## `datetime.strptime` for the formats the code uses

CPython compiles each format directive to a regex alternation and matches
with backtracking, then constructs a `datetime` (which validates the day
against the month, with defaults year=1900, month=1, day=1, hour=0,
minute=0).  `cands` lists each directive's possible matches in the regex's
alternation order; `runFmt` backtracks over them and requires the whole
string to be consumed, like `_strptime`. -/

inductive Dir
  | lit (c : Char)  -- literal character
  | ws              -- whitespace run in the format: `\s+`
  | wday            -- %A  (matched, stored, never used — as in CPython here)
  | dayNum          -- %d  (3[01]|[12]\d|0[1-9]|[1-9])
  | monName         -- %B
  | monNum          -- %m  (1[0-2]|0[1-9]|[1-9])
  | year4           -- %Y  (\d\d\d\d)
  | hour12          -- %I  (1[0-2]|0[1-9]|[1-9])
  | minNum          -- %M  ([0-5]\d|\d)
  | ampm            -- %p  (am|pm, case-insensitive)
deriving DecidableEq, Repr

structure Parts where
  year : Nat := 1900
  month : Nat := 1
  day : Nat := 1
  hour12 : Nat := 0
  minute : Nat := 0
  isPM : Bool := false
  hasPM : Bool := false
deriving DecidableEq, Repr

def monthNames : List (String × Nat) :=
  [("january", 1), ("february", 2), ("march", 3), ("april", 4),
   ("may", 5), ("june", 6), ("july", 7), ("august", 8),
   ("september", 9), ("october", 10), ("november", 11), ("december", 12)]

def weekdayNames : List String :=
  ["Monday", "Tuesday", "Wednesday", "Thursday", "Friday", "Saturday", "Sunday"]

/-- Case-insensitive name match at the head of `cs`; returns the remainder. -/
def stripNameCI : List Char → List Char → Option (List Char)
  | [], cs => some cs
  | _ :: _, [] => none
  | p :: ps, c :: cs => if c.toLower == p then stripNameCI ps cs else none

def wsRun (cs : List Char) : Nat := (cs.takeWhile pyIsSpace).length

def digitVal (c : Char) : Nat := c.toNat - '0'.toNat

/-- Candidates for `%d` in regex alternation order `(3[01]|[12]\d|0[1-9]|[1-9])`. -/
def dayCands : List Char → List (Nat × List Char)
  | c1 :: c2 :: rest =>
    (if c1 == '3' && (c2 == '0' || c2 == '1') then [(30 + digitVal c2, rest)] else []) ++
    (if (c1 == '1' || c1 == '2') && c2.isDigit then [(digitVal c1 * 10 + digitVal c2, rest)] else []) ++
    (if c1 == '0' && c2.isDigit && c2 != '0' then [(digitVal c2, rest)] else []) ++
    (if c1.isDigit && c1 != '0' then [(digitVal c1, c2 :: rest)] else [])
  | [c1] => if c1.isDigit && c1 != '0' then [(digitVal c1, [])] else []
  | [] => []

/-- Candidates for `%m`/`%I` in order `(1[0-2]|0[1-9]|[1-9])`. -/
def monCands : List Char → List (Nat × List Char)
  | c1 :: c2 :: rest =>
    (if c1 == '1' && (c2 == '0' || c2 == '1' || c2 == '2') then [(10 + digitVal c2, rest)] else []) ++
    (if c1 == '0' && c2.isDigit && c2 != '0' then [(digitVal c2, rest)] else []) ++
    (if c1.isDigit && c1 != '0' then [(digitVal c1, c2 :: rest)] else [])
  | [c1] => if c1.isDigit && c1 != '0' then [(digitVal c1, [])] else []
  | [] => []

/-- Candidates for `%M` in order `([0-5]\d|\d)`. -/
def minCands : List Char → List (Nat × List Char)
  | c1 :: c2 :: rest =>
    (if c1.isDigit && digitVal c1 ≤ 5 && c2.isDigit then [(digitVal c1 * 10 + digitVal c2, rest)] else []) ++
    (if c1.isDigit then [(digitVal c1, c2 :: rest)] else [])
  | [c1] => if c1.isDigit then [(digitVal c1, [])] else []
  | [] => []

/-- Candidate for `%Y`: exactly four digits. -/
def yearCands : List Char → List (Nat × List Char)
  | c1 :: c2 :: c3 :: c4 :: rest =>
    if c1.isDigit && c2.isDigit && c3.isDigit && c4.isDigit then
      [(digitVal c1 * 1000 + digitVal c2 * 100 + digitVal c3 * 10 + digitVal c4, rest)]
    else []
  | _ => []

/-- All matches of one directive at the head of `cs`, in the order the
compiled regex would try them (greedy `\s+` longest-first). -/
def cands : Dir → Parts → List Char → List (Parts × List Char)
  | .lit a, r, c :: cs => if c == a then [(r, cs)] else []
  | .lit _, _, [] => []
  | .ws, r, cs =>
    let w := wsRun cs
    (List.range w).map (fun i => (r, cs.drop (w - i)))
  | .wday, r, cs =>
    weekdayNames.filterMap
      (fun n => (stripNameCI (n.data.map Char.toLower) cs).map (fun rest => (r, rest)))
  | .dayNum, r, cs => (dayCands cs).map (fun p => ({ r with day := p.1 }, p.2))
  | .monName, r, cs =>
    monthNames.filterMap (fun n => (stripNameCI n.1.data cs).map (fun rest => ({ r with month := n.2 }, rest)))
  | .monNum, r, cs => (monCands cs).map (fun p => ({ r with month := p.1 }, p.2))
  | .year4, r, cs => (yearCands cs).map (fun p => ({ r with year := p.1 }, p.2))
  | .hour12, r, cs => (monCands cs).map (fun p => ({ r with hour12 := p.1 }, p.2))
  | .minNum, r, cs => (minCands cs).map (fun p => ({ r with minute := p.1 }, p.2))
  | .ampm, r, cs =>
    (match stripNameCI ['a', 'm'] cs with
     | some rest => [({ r with isPM := false, hasPM := true }, rest)]
     | none => []) ++
    (match stripNameCI ['p', 'm'] cs with
     | some rest => [({ r with isPM := true, hasPM := true }, rest)]
     | none => [])

/-- Backtracking matcher: the whole input must be consumed (`_strptime`
rejects trailing data). -/
def runFmt : List Dir → Parts → List Char → Option Parts
  | [], r, cs => if cs.isEmpty then some r else none
  | t :: ts, r, cs => (cands t r cs).findSome? (fun p => runFmt ts p.1 p.2)

/-- `datetime(...)` construction validity for the date components
(CPython raises `ValueError`, failing the format, on an invalid day or
a year outside `MINYEAR..MAXYEAR`). -/
def buildDate (r : Parts) : Option PyDate :=
  if 1 ≤ r.year && r.year ≤ 9999 && 1 ≤ r.day && r.day ≤ daysInMonth r.year r.month then
    some ⟨r.year, r.month, r.day⟩
  else none

def strptimeDate (toks : List Dir) (s : String) : Option PyDate :=
  (runFmt toks {} s.data).bind buildDate

/-- CPython's 12-hour conversion when `%I` and `%p` were both matched. -/
def hour24 (r : Parts) : Nat :=
  if r.hasPM then
    if r.isPM then (if r.hour12 == 12 then 12 else r.hour12 + 12)
    else (if r.hour12 == 12 then 0 else r.hour12)
  else r.hour12

/-- `datetime.strptime(s, "%I:%M %p")`, returning (hour24, minute). -/
def strptimeTime (s : String) : Option (Nat × Nat) :=
  (runFmt [.hour12, .lit ':', .minNum, .ws, .ampm] {} s.data).map
    (fun r => (hour24 r, r.minute))

/-! ## `parse_flexible_date` -/

structure Fmt where
  toks : List Dir
  hasYear : Bool
deriving DecidableEq

/-- The source's format list, in its exact order (`formats` in
`parse_flexible_date`). -/
def formats : List Fmt :=
  [⟨[.wday, .lit ',', .ws, .dayNum, .ws, .monName, .ws, .year4], true⟩,   -- "%A, %d %B %Y"
   ⟨[.wday, .lit ',', .ws, .dayNum, .ws, .monName], false⟩,               -- "%A, %d %B"
   ⟨[.dayNum, .ws, .monName, .ws, .year4], true⟩,                         -- "%d %B %Y"
   ⟨[.monName, .ws, .dayNum, .lit ',', .ws, .year4], true⟩,               -- "%B %d, %Y"
   ⟨[.monNum, .lit '/', .dayNum, .lit '/', .year4], true⟩,                -- "%m/%d/%Y"
   ⟨[.year4, .lit '-', .monNum, .lit '-', .dayNum], true⟩,                -- "%Y-%m-%d"
   ⟨[.dayNum, .lit '-', .monNum, .lit '-', .year4], true⟩]                -- "%d-%m-%Y"

/-- Lines 66-70: for a yearless format, set the year to the current year,
then advance it by one if the resulting date is before today's date. -/
def yearFix (today : PyDate) (d : PyDate) : PyDate :=
  let d1 : PyDate := { d with year := today.year }
  if dateLt d1 today then { d1 with year := today.year + 1 } else d1

/-- `parse_flexible_date` (lines 49-74): try each format in order, return
the first success (with the year inference applied for yearless formats),
`None` if all fail.  `today` embeds the function's own `datetime.now()`. -/
def parse_flexible_date (today : PyDate) (s : String) : Option PyDate :=
  formats.findSome? fun f =>
    (strptimeDate f.toks s).map fun d => if f.hasYear then d else yearFix today d

/-! ## Aware datetimes as instants

The resolver attaches the naive date+time to the fixed local offset
`offMin` (minutes east of UTC) and then only compares, subtracts the
calendar date, adds `timedelta`s, and converts to UTC.  Under one fixed
offset those operations are the image of instant arithmetic, so an aware
datetime is embedded as an `Int`: seconds on the `toOrdinal`-based
timeline (day `toOrdinal d` starts at second `86400 * toOrdinal d` UTC).
`astimezone(timezone.utc)` maps an instant to itself. -/

/-- The instant of the naive local datetime `(d, h:m)` in the local zone. -/
def mkInstant (offMin : Int) (d : PyDate) (h m : Nat) : Int :=
  (toOrdinal d : Int) * 86400 + h * 3600 + m * 60 - offMin * 60

/-- The local calendar day number of an instant: `dt.astimezone(local).date()`
up to the (bijective) day-number/civil-date correspondence. -/
def localDay (offMin : Int) (i : Int) : Int :=
  Int.fdiv (i + offMin * 60) 86400

/-- The local civil date of an instant (`datetime.now()`'s date and year as
seen by `parse_flexible_date`). -/
def localCivil (offMin : Int) (i : Int) : PyDate :=
  civilOfOrdinalDay (localDay offMin i)

/-! ## `parse_datetime`'s date/time resolution (lines 180-219) -/

inductive DTErr
  | unparseableDate (ds : String)   -- line 187
  | malformedRange (ts : String)    -- lines 189-191
  | unpackMany                      -- line 193, list-unpacking ValueError
  | badTime (part : String)         -- lines 195-198, strptime ValueError
  | pastDate (startLocal : Int)     -- lines 215-216
deriving DecidableEq, Repr

/-- Lines 185-198: parse the date, check the range shape, split on `"-"`,
unpack into exactly two stripped parts, parse both times, and build the
pre-correction local start/end instants. -/
def parseSlotParts (offMin : Int) (today : PyDate) (ds ts : String) :
    Except DTErr (Int × Int) :=
  match parse_flexible_date today ds with
  | none => .error (.unparseableDate ds)
  | some dObj =>
    if listHasSub " - ".data ts.data = false then .error (.malformedRange ts)
    else
      match (splitOnDash ts.data).map (fun g => String.mk (stripChars g)) with
      | [sp, ep] =>
        match strptimeTime sp with
        | none => .error (.badTime sp)
        | some (h1, m1) =>
          match strptimeTime ep with
          | none => .error (.badTime ep)
          | some (h2, m2) =>
            .ok (mkInstant offMin dObj h1 m1, mkInstant offMin dObj h2 m2)
      | _ => .error .unpackMany

/-- Lines 180-219: resolve the slot, applying the past-time correction
(start in the past on today's date ⇒ start := now + 5 min,
end := start + duration) and rejecting past starts on other days.
`now` embeds the stage's `datetime.now()`; the slot is returned as the
UTC instants stored into the state. -/
def resolveDateTime (offMin now : Int) (ds ts : String) (dur : Nat) :
    Except DTErr (Int × Int) :=
  match parseSlotParts offMin (localCivil offMin now) ds ts with
  | .error e => .error e
  | .ok (s, e) =>
    if s < now then
      if localDay offMin s == localDay offMin now then
        .ok (now + 5 * 60, now + 5 * 60 + dur * 60)
      else .error (.pastDate s)
    else .ok (s, e)

/-! ## Rendering (isoformat, strftime) for the event payload and messages -/

def pad2 (n : Nat) : String := if n < 10 then "0" ++ toString n else toString n

def pad4 (n : Nat) : String :=
  if n < 10 then "000" ++ toString n
  else if n < 100 then "00" ++ toString n
  else if n < 1000 then "0" ++ toString n
  else toString n

/-- `datetime.isoformat()` of a UTC-aware instant (microsecond 0). -/
def isoUTC (i : Int) : String :=
  let day := Int.fdiv i 86400
  let sod := (i - 86400 * day).toNat
  let d := civilOfOrdinalDay day
  pad4 d.year ++ "-" ++ pad2 d.month ++ "-" ++ pad2 d.day ++ "T" ++
    pad2 (sod / 3600) ++ ":" ++ pad2 (sod % 3600 / 60) ++ ":" ++ pad2 (sod % 60) ++
    "+00:00"

def monthLongName (m : Nat) : String :=
  match m with
  | 1 => "January" | 2 => "February" | 3 => "March" | 4 => "April"
  | 5 => "May" | 6 => "June" | 7 => "July" | 8 => "August"
  | 9 => "September" | 10 => "October" | 11 => "November" | 12 => "December"
  | _ => ""

def weekdayLongName (ordinalDay : Int) : String :=
  match (Int.fmod (ordinalDay - 1) 7).toNat with
  | 0 => "Monday" | 1 => "Tuesday" | 2 => "Wednesday" | 3 => "Thursday"
  | 4 => "Friday" | 5 => "Saturday" | _ => "Sunday"

/-- `strftime('%A, %d %B %Y %I:%M %p')` of the local view of an instant. -/
def strftimeLong (offMin : Int) (i : Int) : String :=
  let ls := i + offMin * 60
  let day := Int.fdiv ls 86400
  let sod := (ls - 86400 * day).toNat
  let d := civilOfOrdinalDay day
  let hh := sod / 3600
  weekdayLongName day ++ ", " ++ pad2 d.day ++ " " ++ monthLongName d.month ++ " " ++
    pad4 d.year ++ " " ++ pad2 (if hh % 12 == 0 then 12 else hh % 12) ++ ":" ++
    pad2 (sod % 3600 / 60) ++ " " ++ (if hh < 12 then "AM" else "PM")

/-- The error string `parse_datetime` writes for each raised `ValueError`
(lines 229-231). -/
def dtMsg (offMin : Int) : DTErr → String
  | .unparseableDate ds =>
    "Date/Time parsing error: Could not parse scheduled date: '" ++ ds ++
      "'. Please check AI output format."
  | .malformedRange ts =>
    "Date/Time parsing error: Scheduled time format is incorrect: '" ++ ts ++
      "'. Expected 'HH:MM AM/PM - HH:MM AM/PM'."
  | .unpackMany =>
    "Date/Time parsing error: too many values to unpack (expected 2)"
  | .badTime part =>
    "Date/Time parsing error: time data '" ++ part ++
      "' does not match format '%I:%M %p'"
  | .pastDate s =>
    "Date/Time parsing error: The AI suggested a date in the past: '" ++
      strftimeLong offMin s ++
      "'. Please refine your request to schedule a future appointment."

/-! ## `re.search` for the response patterns

The patterns are `L\s*(.+)` for a literal label `L` ("Task:", "Date:",
"Time:", "Priority:") and `Duration:\s*(\d+)`.  `re.search` scans for the
leftmost position where the whole pattern matches; `\s*` is greedy and also
matches newlines, backtracking one character at a time; `(.+)` then takes
at least one non-newline character, greedily to the end of the line. -/

def takeLine (cs : List Char) : List Char := cs.takeWhile (fun c => c != '\n')

/-- Try `(.+)` after `\s*` consumed `p` characters, backtracking `p` down. -/
def tryBacktrack (cs : List Char) : Nat → Option (List Char)
  | 0 =>
    match cs with
    | c :: _ => if c == '\n' then none else some (takeLine cs)
    | [] => none
  | p + 1 =>
    match cs.drop (p + 1) with
    | c :: rest => if c == '\n' then tryBacktrack cs p else some (takeLine (c :: rest))
    | [] => tryBacktrack cs p

/-- Match `\s*(.+)` at the start of `cs`; return the group-1 capture. -/
def matchTail (cs : List Char) : Option (List Char) := tryBacktrack cs (wsRun cs)

/-- `re.search(label + r"\s*(.+)", s)`, returning the group-1 capture of the
leftmost successful match. -/
def searchCapture (label : List Char) : List Char → Option (List Char)
  | [] => none
  | c :: cs =>
    if startsWithPat label (c :: cs) then
      match matchTail ((c :: cs).drop label.length) with
      | some r => some r
      | none => searchCapture label cs
    else searchCapture label cs

/-- `re.search(r"Duration:\s*(\d+)", s)` followed by `int(...)`. -/
def searchDuration : List Char → Option Nat
  | [] => none
  | c :: cs =>
    if startsWithPat "Duration:".data (c :: cs) then
      let tail := (c :: cs).drop 9
      let afterWs := tail.drop (wsRun tail)
      match afterWs with
      | d :: _ =>
        if d.isDigit then some (natOfDigits (afterWs.takeWhile Char.isDigit))
        else searchDuration cs
      | [] => searchDuration cs
    else searchDuration cs

/-! ## The pipeline state and stages

`SchedulerState` (lines 35-47).  External effects — the LLM call, the
Google auth chain, and the remote calendar insert — are supplied as
explicit outcome parameters; `schedule_event` additionally reports whether
the remote insert was invoked. -/

structure Reminder where
  method : String
  minutes : Nat
deriving DecidableEq, Repr

structure Reminders where
  useDefault : Bool
  overrides : List Reminder
deriving DecidableEq, Repr

structure EvtTime where
  dateTime : String
  timeZone : String
deriving DecidableEq, Repr

structure CalEvent where
  summary : String
  start : EvtTime
  endT : EvtTime
  description : String
  reminders : Reminders
deriving DecidableEq, Repr

structure SchedState where
  sentence : String
  output : Option String
  task_title : Option String
  scheduled_date_str : Option String
  scheduled_time_str : Option String
  duration_minutes : Option Nat
  start_dt : Option Int
  end_dt : Option Int
  hasService : Bool
  event : Option CalEvent
  created_event : Option String
  parsed_priority : Option String
  error : Option String
deriving DecidableEq, Repr

/-- `process_ai_request` (lines 77-128): invoke the model, store the
stripped reply, or record the invocation error.  (First stage: no error
guard in the source.) -/
def process_ai_request (llmRes : Except String String) (st : SchedState) : SchedState :=
  match llmRes with
  | .ok content => { st with output := some (pyStrip content) }
  | .error e =>
    { st with error := some ("Error getting AI response: " ++ e), output := none }

def incompleteInner : String :=
  "Essential scheduling details (Task, Scheduled Date, or Scheduled Time) missing from AI output."

def noOutputInner : String :=
  "No AI output to parse. Previous step might have failed."

/-- The error string written by `parse_ai_response` (line 169). -/
def parseErrMsg (inner : String) : String :=
  "Error parsing AI response: " ++ inner ++ ". Ensure AI output matches expected format."

/-- `parse_ai_response` (lines 131-172): extract Task/Date/Time (all three
required), Duration (first integer after a `Duration:` label, else 60),
and Priority (trimmed text after `Priority:`, else "Normal"). -/
def parse_ai_response (st : SchedState) : SchedState :=
  if st.error.isSome then st
  else
    match st.output with
    | none => { st with error := some (parseErrMsg noOutputInner) }
    | some out =>
      if out = "" then { st with error := some (parseErrMsg noOutputInner) }
      else
        match searchCapture "Task:".data out.data,
              searchCapture "Date:".data out.data,
              searchCapture "Time:".data out.data with
        | some t, some d, some tm =>
          { st with
            task_title := some (String.mk (stripChars t)),
            scheduled_date_str := some (String.mk (stripChars d)),
            scheduled_time_str := some (String.mk (stripChars tm)),
            duration_minutes := some ((searchDuration out.data).getD 60),
            parsed_priority :=
              some (((searchCapture "Priority:".data out.data).map
                (fun p => String.mk (stripChars p))).getD "Normal") }
        | _, _, _ => { st with error := some (parseErrMsg incompleteInner) }

def unexpectedDtMsg : String :=
  "An unexpected error occurred during date/time parsing: missing state field"

/-- `parse_datetime` (lines 175-236) as a stage: skip on error, resolve the
slot, store the UTC instants or the stage's error string. -/
def parse_datetime (offMin now : Int) (st : SchedState) : SchedState :=
  if st.error.isSome then st
  else
    match st.scheduled_date_str, st.scheduled_time_str, st.duration_minutes with
    | some ds, some ts, some dur =>
      match resolveDateTime offMin now ds ts dur with
      | .ok (s, e) => { st with start_dt := some s, end_dt := some e }
      | .error er => { st with error := some (dtMsg offMin er) }
    | _, _, _ => { st with error := some unexpectedDtMsg }

inductive AuthOutcome
  | success
  | httpErr (status : Nat) (body : String)
  | exn (msg : String)
deriving DecidableEq, Repr

/-- `authenticate_google` (lines 239-282): skip on error; otherwise either a
service handle is obtained or the stage records its auth error. -/
def authenticate_google (a : AuthOutcome) (st : SchedState) : SchedState :=
  if st.error.isSome then st
  else
    match a with
    | .success => { st with hasService := true }
    | .httpErr status body =>
      { st with error := some ("Google Calendar API authentication error: " ++
          toString status ++ " - " ++ body) }
    | .exn m => { st with error := some ("Authentication error: " ++ m) }

/-- `create_event` (lines 285-318): pure assembly of the event payload from
the state; no outcome parameter because the stage performs no external call. -/
def create_event (st : SchedState) : SchedState :=
  if st.error.isSome then st
  else
    match st.task_title, st.start_dt, st.end_dt, st.output with
    | some t, some s, some e, some o =>
      { st with event := some (CalEvent.mk t ⟨isoUTC s, "Asia/Kolkata"⟩
          ⟨isoUTC e, "Asia/Kolkata"⟩
          ("Scheduled via AI Scheduler.\n\nOriginal Request: \"" ++
            st.sentence ++ "\"\n\nAI Analysis:\n" ++ o)
          ⟨false, [⟨"email", 24 * 60⟩, ⟨"popup", 10⟩]⟩) }
    | _, _, _, _ => { st with error := some "Error preparing event details: missing state field" }

/-- `schedule_event` (lines 321-408): skip on error; otherwise perform the
remote insert.  The returned flag records whether the `insert(...).execute()`
call was reached. -/
def schedule_event (insertRes : Except (Nat × String) String) (st : SchedState) :
    SchedState × Bool :=
  if st.error.isSome then (st, false)
  else
    match st.hasService, st.event with
    | true, some _ =>
      match insertRes with
      | .ok handle => ({ st with created_event := some handle }, true)
      | .error (status, body) =>
        ({ st with error := some ("Google Calendar API scheduling error: " ++
            toString status ++ " - " ++ body) }, true)
    | _, _ => ({ st with error := some "Failed to create event: missing state field" }, false)

/-- `should_continue` (lines 430-434). -/
def should_continue (st : SchedState) : String :=
  if st.error.isSome then "error" else "continue"

/-! ## The workflow graph (`create_workflow`, lines 438-484) -/

inductive Node
  | process_ai
  | parse_response
  | parse_datetime_n
  | authenticate
  | create_event_n
  | schedule
  | error_handler
  | endNode
deriving DecidableEq, Repr

/-- The transition function compiled from the `add_conditional_edges` /
`add_edge` calls: after a stage runs on `st`, the next node. -/
def nextNode : Node → SchedState → Node
  | .process_ai, st => if should_continue st = "error" then .error_handler else .parse_response
  | .parse_response, st => if should_continue st = "error" then .error_handler else .parse_datetime_n
  | .parse_datetime_n, st => if should_continue st = "error" then .error_handler else .authenticate
  | .authenticate, st => if should_continue st = "error" then .error_handler else .create_event_n
  | .create_event_n, st => if should_continue st = "error" then .error_handler else .schedule
  | .schedule, _ => .endNode
  | .error_handler, _ => .endNode
  | .endNode, _ => .endNode

/-! ## Helper lemmas -/

instance {ε α : Type} [DecidableEq ε] [DecidableEq α] : DecidableEq (Except ε α) :=
  fun a b =>
    match a, b with
    | .ok x, .ok y =>
      if h : x = y then .isTrue (by rw [h]) else .isFalse (by intro hc; cases hc; exact h rfl)
    | .error x, .error y =>
      if h : x = y then .isTrue (by rw [h]) else .isFalse (by intro hc; cases hc; exact h rfl)
    | .ok _, .error _ => .isFalse (by intro hc; cases hc)
    | .error _, .ok _ => .isFalse (by intro hc; cases hc)

theorem findSome_eq_find_bind {α β : Type} (g : α → Option β) (l : List α) :
    l.findSome? g = (l.find? (fun a => (g a).isSome)).bind g := by
  induction l with
  | nil => rfl
  | cons a l ih =>
    cases h : g a with
    | none => simp [List.findSome?, List.find?, h, ih]
    | some b => simp [List.findSome?, List.find?, h]

/-- `parse_flexible_date` returns the (year-fixed) result of the first
format in the list whose `strptime` succeeds. -/
theorem parse_flexible_date_first_match (today : PyDate) (s : String) :
    parse_flexible_date today s =
      (formats.find? (fun f => (strptimeDate f.toks s).isSome)).bind
        (fun f => (strptimeDate f.toks s).map
          (fun d => if f.hasYear then d else yearFix today d)) := by
  unfold parse_flexible_date
  rw [findSome_eq_find_bind]
  have hp : (fun f : Fmt =>
        ((strptimeDate f.toks s).map fun d =>
          if f.hasYear then d else yearFix today d).isSome) =
      (fun f : Fmt => (strptimeDate f.toks s).isSome) := by
    funext f; cases strptimeDate f.toks s <;> rfl
  rw [hp]

theorem searchCapture_none_of_no_sub (pat : List Char) :
    ∀ cs : List Char, listHasSub pat cs = false → searchCapture pat cs = none := by
  intro cs
  induction cs with
  | nil => intro _; rfl
  | cons c cs ih =>
    intro h
    unfold listHasSub at h
    rw [Bool.or_eq_false_iff] at h
    unfold searchCapture
    rw [h.1]
    simp only [if_false, Bool.false_eq_true]
    exact ih h.2

theorem startsWithPat_iff (pat : List Char) :
    ∀ cs, startsWithPat pat cs = true ↔ pat <+: cs := by
  induction pat with
  | nil => intro cs; simp [startsWithPat, List.nil_prefix]
  | cons p ps ih =>
    intro cs
    cases cs with
    | nil => simp [startsWithPat]
    | cons c cs =>
      simp [startsWithPat, ih, List.cons_prefix_cons, Bool.and_eq_true, beq_iff_eq]

theorem listHasSub_iff (pat : List Char) :
    ∀ cs, listHasSub pat cs = true ↔ pat <:+: cs := by
  intro cs
  induction cs with
  | nil => simp [listHasSub, startsWithPat_iff]
  | cons c cs ih =>
    simp only [listHasSub, Bool.or_eq_true, startsWithPat_iff, ih]
    exact (List.infix_cons_iff).symm

theorem sub_of_sub_spaced (cs : List Char) (h : listHasSub " - ".data cs = true) :
    listHasSub "-".data cs = true := by
  rw [listHasSub_iff] at h ⊢
  exact List.IsInfix.trans ⟨[' '], [' '], rfl⟩ h

/-! ## Claim theorems -/

/-- C2: once the pipeline state carries an error, every subsequent stage
(`parse_response`, `parse_datetime`, `authenticate`, `create_event`,
`schedule`) returns the state unchanged — in particular `task_title`,
`start_dt` and `end_dt` are untouched and the remote calendar insert is
never invoked — and every conditional edge routes to the error handler. -/
theorem error_short_circuits (st : SchedState) (msg : String) (offMin now : Int)
    (a : AuthOutcome) (ir : Except (Nat × String) String)
    (h : st.error = some msg) :
    parse_ai_response st = st ∧
    parse_datetime offMin now st = st ∧
    authenticate_google a st = st ∧
    create_event st = st ∧
    schedule_event ir st = (st, false) ∧
    should_continue st = "error" ∧
    nextNode .process_ai st = .error_handler ∧
    nextNode .parse_response st = .error_handler ∧
    nextNode .parse_datetime_n st = .error_handler ∧
    nextNode .authenticate st = .error_handler ∧
    nextNode .create_event_n st = .error_handler := by
  have hs : st.error.isSome = true := by rw [h]; rfl
  refine ⟨?_, ?_, ?_, ?_, ?_, ?_, ?_, ?_, ?_, ?_, ?_⟩ <;>
    simp [parse_ai_response, parse_datetime, authenticate_google, create_event,
      schedule_event, should_continue, nextNode, hs]

def sampleErrState : SchedState :=
  { sentence := "Meet John tomorrow at 3 PM", output := none, task_title := none,
    scheduled_date_str := none, scheduled_time_str := none,
    duration_minutes := some 60, start_dt := none, end_dt := none,
    hasService := false, event := none, created_event := none,
    parsed_priority := none, error := some "Error getting AI response: boom" }

/-- C9: for every state reaching the event-building stage without error and
with its fields populated, `create_event` builds exactly the payload with
summary = task title, ISO-8601 start/end instants under the fixed
"Asia/Kolkata" display timezone, the description embedding the original
request and the raw model reply, and the fixed reminder policy
{useDefault: false, email at 1440 min, popup at 10 min}; the stage leaves
every other field (in particular `created_event` — no remote call) intact. -/
theorem create_event_builds_payload (st : SchedState) (t o : String) (s e : Int)
    (he : st.error = none) (ht : st.task_title = some t) (hs : st.start_dt = some s)
    (hd : st.end_dt = some e) (ho : st.output = some o) :
    create_event st = { st with event := some (CalEvent.mk t
      ⟨isoUTC s, "Asia/Kolkata"⟩
      ⟨isoUTC e, "Asia/Kolkata"⟩
      ("Scheduled via AI Scheduler.\n\nOriginal Request: \"" ++
        st.sentence ++ "\"\n\nAI Analysis:\n" ++ o)
      ⟨false, [⟨"email", 1440⟩, ⟨"popup", 10⟩]⟩) } ∧
    (create_event st).created_event = st.created_event ∧
    (create_event st).start_dt = st.start_dt ∧
    (create_event st).end_dt = st.end_dt ∧
    (create_event st).task_title = st.task_title ∧
    (create_event st).error = none := by
  have h24 : (24 * 60 : Nat) = 1440 := by norm_num
  refine ⟨?_, ?_, ?_, ?_, ?_, ?_⟩ <;>
    simp [create_event, he, ht, hs, hd, ho, h24]

def sampleOkState : SchedState :=
  { sentence := "Meeting with John tomorrow at 3 PM", output := some "Task: Meeting with John",
    task_title := some "Meeting with John", scheduled_date_str := some "Wednesday, 28 May 2025",
    scheduled_time_str := some "3:00 PM - 4:00 PM", duration_minutes := some 60,
    start_dt := some (mkInstant 330 ⟨2025, 5, 28⟩ 15 0),
    end_dt := some (mkInstant 330 ⟨2025, 5, 28⟩ 16 0),
    hasService := true, event := none, created_event := none,
    parsed_priority := some "Normal", error := none }

theorem create_event_builds_payload_witness :
    create_event sampleOkState = { sampleOkState with event := some (CalEvent.mk
      "Meeting with John"
      ⟨isoUTC (mkInstant 330 ⟨2025, 5, 28⟩ 15 0), "Asia/Kolkata"⟩
      ⟨isoUTC (mkInstant 330 ⟨2025, 5, 28⟩ 16 0), "Asia/Kolkata"⟩
      ("Scheduled via AI Scheduler.\n\nOriginal Request: \"" ++
        sampleOkState.sentence ++ "\"\n\nAI Analysis:\n" ++ "Task: Meeting with John")
      ⟨false, [⟨"email", 1440⟩, ⟨"popup", 10⟩]⟩) } ∧
    (create_event sampleOkState).created_event = sampleOkState.created_event ∧
    (create_event sampleOkState).start_dt = sampleOkState.start_dt ∧
    (create_event sampleOkState).end_dt = sampleOkState.end_dt ∧
    (create_event sampleOkState).task_title = sampleOkState.task_title ∧
    (create_event sampleOkState).error = none :=
  create_event_builds_payload sampleOkState "Meeting with John" "Task: Meeting with John"
    (mkInstant 330 ⟨2025, 5, 28⟩ 15 0) (mkInstant 330 ⟨2025, 5, 28⟩ 16 0)
    rfl rfl rfl rfl rfl

/-- C1: when the pre-correction start instant is strictly before "now":
if its local calendar day equals today's, the resolver shifts start to
now + 5 minutes and recomputes end as start + duration (discarding the
parsed end of the range); if it falls on another day, the resolver fails
with the past-date error and applies no correction. -/
theorem past_time_correction (offMin now : Int) (ds ts : String) (dur : Nat)
    (s0 e0 : Int)
    (hp : parseSlotParts offMin (localCivil offMin now) ds ts = .ok (s0, e0))
    (hlt : s0 < now) :
    (localDay offMin s0 = localDay offMin now →
      resolveDateTime offMin now ds ts dur = .ok (now + 5 * 60, now + 5 * 60 + dur * 60)) ∧
    (localDay offMin s0 ≠ localDay offMin now →
      resolveDateTime offMin now ds ts dur = .error (.pastDate s0)) := by
  unfold resolveDateTime
  rw [hp]
  constructor
  · intro hday
    simp [hlt, hday]
  · intro hday
    simp [hlt, hday]

theorem past_time_correction_witness :
    resolveDateTime 330 (mkInstant 330 ⟨2025, 5, 28⟩ 16 0)
        "2025-05-28" "3:00 PM - 3:30 PM" 45 =
      .ok (mkInstant 330 ⟨2025, 5, 28⟩ 16 0 + 5 * 60,
           mkInstant 330 ⟨2025, 5, 28⟩ 16 0 + 5 * 60 + 45 * 60) ∧
    resolveDateTime 330 (mkInstant 330 ⟨2025, 5, 28⟩ 16 0)
        "2025-05-27" "3:00 PM - 3:30 PM" 45 =
      .error (.pastDate (mkInstant 330 ⟨2025, 5, 27⟩ 15 0)) :=
  ⟨(past_time_correction 330 (mkInstant 330 ⟨2025, 5, 28⟩ 16 0)
      "2025-05-28" "3:00 PM - 3:30 PM" 45
      (mkInstant 330 ⟨2025, 5, 28⟩ 15 0) (mkInstant 330 ⟨2025, 5, 28⟩ 15 30)
      (by decide) (by decide)).1 (by decide),
   (past_time_correction 330 (mkInstant 330 ⟨2025, 5, 28⟩ 16 0)
      "2025-05-27" "3:00 PM - 3:30 PM" 45
      (mkInstant 330 ⟨2025, 5, 27⟩ 15 0) (mkInstant 330 ⟨2025, 5, 27⟩ 15 30)
      (by decide) (by decide)).2 (by decide)⟩

/-- C3 counterexample: the resolver accepts a reversed time range on a
future date: the resolved slot has end < start (so `end > start` fails) and
end − start ≠ duration even though the past-time correction did not fire. -/
theorem slot_invariant_counterexample :
    resolveDateTime 0 (mkInstant 0 ⟨2025, 1, 1⟩ 0 0)
        "2025-05-28" "3:00 PM - 2:00 PM" 60 =
      .ok (mkInstant 0 ⟨2025, 5, 28⟩ 15 0, mkInstant 0 ⟨2025, 5, 28⟩ 14 0) ∧
    mkInstant 0 ⟨2025, 5, 28⟩ 14 0 < mkInstant 0 ⟨2025, 5, 28⟩ 15 0 ∧
    mkInstant 0 ⟨2025, 5, 28⟩ 15 0 - mkInstant 0 ⟨2025, 5, 28⟩ 14 0 = 60 * 60 := by
  refine ⟨by decide, by decide, by decide⟩

/-- C3 amended: every successfully resolved slot has start not strictly
before "now"; when the past-time correction fired (pre-correction start
before now), end − start equals duration_minutes and start = now + 5 min;
when it did not fire, the slot is the parsed range verbatim — whose end may
be at or before its start and whose span may differ from duration_minutes,
since the code checks neither. -/
theorem slot_invariant_amended (offMin now : Int) (ds ts : String) (dur : Nat)
    (s e : Int)
    (h : resolveDateTime offMin now ds ts dur = .ok (s, e)) :
    now ≤ s ∧
    ∀ s0 e0, parseSlotParts offMin (localCivil offMin now) ds ts = .ok (s0, e0) →
      (s0 < now → s = now + 5 * 60 ∧ e - s = (dur : Int) * 60) ∧
      (now ≤ s0 → s = s0 ∧ e = e0) := by
  unfold resolveDateTime at h
  split at h
  next er heq => exact absurd h (by simp)
  next s0 e0 heq =>
    split at h
    · -- pre-correction start before now
      rename_i hlt
      split at h
      · -- same day: corrected
        simp only [Except.ok.injEq, Prod.mk.injEq] at h
        obtain ⟨hs, he⟩ := h
        constructor
        · omega
        · intro s0' e0' hp'
          rw [heq] at hp'
          simp only [Except.ok.injEq, Prod.mk.injEq] at hp'
          obtain ⟨h1, h2⟩ := hp'
          subst h1 h2
          constructor
          · intro _; constructor <;> omega
          · intro hc; omega
      · exact absurd h (by simp)
    · -- start not before now: slot unchanged
      rename_i hlt
      simp only [Except.ok.injEq, Prod.mk.injEq] at h
      obtain ⟨hs, he⟩ := h
      subst hs he
      constructor
      · omega
      · intro s0' e0' hp'
        rw [heq] at hp'
        simp only [Except.ok.injEq, Prod.mk.injEq] at hp'
        obtain ⟨h1, h2⟩ := hp'
        subst h1 h2
        constructor
        · intro hc; omega
        · intro _; exact ⟨rfl, rfl⟩

theorem slot_invariant_amended_witness :
    mkInstant 330 ⟨2025, 5, 28⟩ 16 0 ≤ mkInstant 330 ⟨2025, 5, 28⟩ 16 0 + 5 * 60 ∧
    mkInstant 330 ⟨2025, 5, 28⟩ 16 0 + 5 * 60 =
      mkInstant 330 ⟨2025, 5, 28⟩ 16 0 + 5 * 60 ∧
    (mkInstant 330 ⟨2025, 5, 28⟩ 16 0 + 5 * 60 + 30 * 60) -
      (mkInstant 330 ⟨2025, 5, 28⟩ 16 0 + 5 * 60) = ((30 : Nat) : Int) * 60 :=
  have h := slot_invariant_amended 330 (mkInstant 330 ⟨2025, 5, 28⟩ 16 0)
    "2025-05-28" "3:00 PM - 3:45 PM" 30
    (mkInstant 330 ⟨2025, 5, 28⟩ 16 0 + 5 * 60)
    (mkInstant 330 ⟨2025, 5, 28⟩ 16 0 + 5 * 60 + 30 * 60)
    (by decide)
  ⟨h.1, (h.2 (mkInstant 330 ⟨2025, 5, 28⟩ 15 0) (mkInstant 330 ⟨2025, 5, 28⟩ 15 45)
    (by decide)).1 (by decide)⟩

/-- C4: date parsing tries the source's fixed format list in exactly its
order, returning the (year-inferred) result of the first format whose
strptime succeeds — first-match-wins — and when no format matches, the
resolver fails with the unparseable-date error. -/
theorem date_format_priority (today : PyDate) (s : String) :
    (parse_flexible_date today s =
      (formats.find? (fun f => (strptimeDate f.toks s).isSome)).bind
        (fun f => (strptimeDate f.toks s).map
          (fun d => if f.hasYear then d else yearFix today d))) ∧
    ((∀ f ∈ formats, strptimeDate f.toks s = none) →
      ∀ offMin now ts dur,
        resolveDateTime offMin now s ts dur = .error (.unparseableDate s)) := by
  constructor
  · exact parse_flexible_date_first_match today s
  · intro hall offMin now ts dur
    have hnone : ∀ today2 : PyDate, parse_flexible_date today2 s = none := by
      intro today2
      rw [parse_flexible_date_first_match]
      have : formats.find? (fun f => (strptimeDate f.toks s).isSome) = none := by
        rw [List.find?_eq_none]
        intro f hf
        rw [hall f hf]
        simp
      rw [this]
      rfl
    unfold resolveDateTime parseSlotParts
    rw [hnone (localCivil offMin now)]

theorem date_format_priority_witness :
    resolveDateTime 330 (mkInstant 330 ⟨2025, 5, 28⟩ 16 0)
        "sometime next week" "3:00 PM - 4:00 PM" 60 =
      .error (.unparseableDate "sometime next week") :=
  (date_format_priority ⟨2025, 5, 28⟩ "sometime next week").2 (by decide)
    330 (mkInstant 330 ⟨2025, 5, 28⟩ 16 0) "3:00 PM - 4:00 PM" 60

/-- C5: when the first matching format carries no year, the parsed date's
year is set to the current year and advanced by one exactly when the
resulting date is before today's date; a date matched by a year-carrying
format is returned unmodified. -/
theorem yearless_inference (today : PyDate) (s : String) (f : Fmt) (d : PyDate)
    (hf : formats.find? (fun g => (strptimeDate g.toks s).isSome) = some f)
    (hd : strptimeDate f.toks s = some d) :
    (f.hasYear = true → parse_flexible_date today s = some d) ∧
    (f.hasYear = false →
      parse_flexible_date today s = some (yearFix today d) ∧
      (yearFix today d).month = d.month ∧
      (yearFix today d).day = d.day ∧
      (yearFix today d).year =
        (if dateLt ⟨today.year, d.month, d.day⟩ today then today.year + 1
         else today.year)) := by
  have he := parse_flexible_date_first_match today s
  rw [hf] at he
  simp only [Option.some_bind, hd, Option.map_some'] at he
  constructor
  · intro hy
    rw [he, if_pos hy]
  · intro hy
    rw [hy] at he
    simp only [Bool.false_eq_true, if_false] at he
    refine ⟨he, ?_, ?_, ?_⟩ <;>
      · unfold yearFix
        dsimp only
        split <;> rfl

theorem yearless_inference_witness :
    parse_flexible_date ⟨2025, 10, 12⟩ "Wednesday, 28 May" =
      some (yearFix ⟨2025, 10, 12⟩ ⟨1900, 5, 28⟩) ∧
    (yearFix ⟨2025, 10, 12⟩ ⟨1900, 5, 28⟩).month = 5 ∧
    (yearFix ⟨2025, 10, 12⟩ ⟨1900, 5, 28⟩).day = 28 ∧
    (yearFix ⟨2025, 10, 12⟩ ⟨1900, 5, 28⟩).year =
      (if dateLt ⟨2025, 5, 28⟩ ⟨2025, 10, 12⟩ then 2025 + 1 else 2025) :=
  (yearless_inference ⟨2025, 10, 12⟩ "Wednesday, 28 May"
    ⟨[.wday, .lit ',', .ws, .dayNum, .ws, .monName], false⟩ ⟨1900, 5, 28⟩
    (by decide) (by decide)).2 rfl

/-- C6: time-range handling succeeds only when the scheduled-time string
splits into exactly two trimmed substrings around a single hyphen; a string
with no hyphen fails with the malformed-range error, and any other bad
shape (more than one hyphen) fails inside the same date/time stage — with
the malformed-range error or the unpacking error, both captured as the
stage's own "Date/Time parsing error" state, never an unhandled exception. -/
theorem time_range_shape (offMin now : Int) (ds ts : String) (dObj : PyDate)
    (hd : parse_flexible_date (localCivil offMin now) ds = some dObj) :
    (∀ s e, parseSlotParts offMin (localCivil offMin now) ds ts = .ok (s, e) →
      (splitOnDash ts.data).length = 2 ∧ listHasSub " - ".data ts.data = true) ∧
    (listHasSub "-".data ts.data = false →
      parseSlotParts offMin (localCivil offMin now) ds ts = .error (.malformedRange ts)) ∧
    ((splitOnDash ts.data).length ≠ 2 →
      parseSlotParts offMin (localCivil offMin now) ds ts = .error (.malformedRange ts) ∨
      parseSlotParts offMin (localCivil offMin now) ds ts = .error .unpackMany) ∧
    (∀ st dur, st.error = none → st.scheduled_date_str = some ds →
      st.scheduled_time_str = some ts → st.duration_minutes = some dur →
      (splitOnDash ts.data).length ≠ 2 →
      (parse_datetime offMin now st).error = some (dtMsg offMin (.malformedRange ts)) ∨
      (parse_datetime offMin now st).error = some (dtMsg offMin .unpackMany)) := by
  have hps : parseSlotParts offMin (localCivil offMin now) ds ts =
      (if listHasSub " - ".data ts.data = false then .error (.malformedRange ts)
       else
         match (splitOnDash ts.data).map (fun g => String.mk (stripChars g)) with
         | [sp, ep] =>
           match strptimeTime sp with
           | none => .error (.badTime sp)
           | some (h1, m1) =>
             match strptimeTime ep with
             | none => .error (.badTime ep)
             | some (h2, m2) =>
               .ok (mkInstant offMin dObj h1 m1, mkInstant offMin dObj h2 m2)
         | _ => .error .unpackMany) := by
    unfold parseSlotParts
    rw [hd]
  have hc : (splitOnDash ts.data).length ≠ 2 →
      parseSlotParts offMin (localCivil offMin now) ds ts = .error (.malformedRange ts) ∨
      parseSlotParts offMin (localCivil offMin now) ds ts = .error .unpackMany := by
    intro hlen
    rw [hps]
    by_cases hcond : listHasSub " - ".data ts.data = false
    · rw [if_pos hcond]
      exact Or.inl rfl
    · rw [if_neg hcond]
      cases hm : (splitOnDash ts.data).map (fun g => String.mk (stripChars g)) with
      | nil => exact Or.inr rfl
      | cons sp l =>
        cases l with
        | nil => exact Or.inr rfl
        | cons ep l2 =>
          cases l2 with
          | nil => exact absurd (by simpa using congrArg List.length hm) hlen
          | cons x l3 => exact Or.inr rfl
  refine ⟨?_, ?_, hc, ?_⟩
  · intro s e h
    rw [hps] at h
    by_cases hcond : listHasSub " - ".data ts.data = false
    · rw [if_pos hcond] at h
      cases h
    · rw [if_neg hcond] at h
      have hsub : listHasSub " - ".data ts.data = true := by
        revert hcond; simp
      refine ⟨?_, hsub⟩
      cases hm : (splitOnDash ts.data).map (fun g => String.mk (stripChars g)) with
      | nil => rw [hm] at h; cases h
      | cons sp l =>
        cases l with
        | nil => rw [hm] at h; cases h
        | cons ep l2 =>
          cases l2 with
          | nil => simpa using congrArg List.length hm
          | cons x l3 => rw [hm] at h; cases h
  · intro hnf
    have hsp : listHasSub " - ".data ts.data = false := by
      cases hsp2 : listHasSub " - ".data ts.data
      · rfl
      · exact absurd (sub_of_sub_spaced ts.data hsp2) (by simp [hnf])
    rw [hps, if_pos hsp]
  · intro st dur he hds hts hdur hlen
    have hse : st.error.isSome = false := by rw [he]; rfl
    have hres : ∀ er, parseSlotParts offMin (localCivil offMin now) ds ts = .error er →
        resolveDateTime offMin now ds ts dur = .error er := by
      intro er hq
      unfold resolveDateTime
      rw [hq]
    rcases hc hlen with hcase | hcase
    · left
      simp [parse_datetime, hse, hds, hts, hdur, hres _ hcase]
    · right
      simp [parse_datetime, hse, hds, hts, hdur, hres _ hcase]

theorem time_range_shape_witness :
    parseSlotParts 330 (localCivil 330 (mkInstant 330 ⟨2025, 5, 28⟩ 16 0))
        "2025-05-28" "3 PM" = .error (.malformedRange "3 PM") :=
  ((time_range_shape 330 (mkInstant 330 ⟨2025, 5, 28⟩ 16 0) "2025-05-28" "3 PM"
    ⟨2025, 5, 28⟩ (by decide)).2.1) (by decide)

/-- C7: a model reply missing any of the Task/Date/Time labels makes the
response parser fail with the incomplete-extraction error (the rest of the
state untouched), after which the date/time stage is a no-op and the next
transition goes to the error handler; when all three label patterns match,
the three fields are extracted as the trimmed captured text; and no graph
edge ever leads back to the model-invocation stage (no retry). -/
theorem extraction_requires_labels (st : SchedState) (out : String)
    (ho : st.output = some out) (he : st.error = none) (hne : out ≠ "") :
    ((listHasSub "Task:".data out.data = false ∨
      listHasSub "Date:".data out.data = false ∨
      listHasSub "Time:".data out.data = false) →
      parse_ai_response st = { st with error := some (parseErrMsg incompleteInner) } ∧
      (∀ offMin now,
        parse_datetime offMin now (parse_ai_response st) = parse_ai_response st) ∧
      nextNode .parse_response (parse_ai_response st) = .error_handler) ∧
    (∀ a b c, searchCapture "Task:".data out.data = some a →
      searchCapture "Date:".data out.data = some b →
      searchCapture "Time:".data out.data = some c →
      (parse_ai_response st).task_title = some (String.mk (stripChars a)) ∧
      (parse_ai_response st).scheduled_date_str = some (String.mk (stripChars b)) ∧
      (parse_ai_response st).scheduled_time_str = some (String.mk (stripChars c)) ∧
      (parse_ai_response st).error = none) ∧
    (∀ n st2, nextNode n st2 ≠ .process_ai) := by
  have hse : st.error.isSome = false := by rw [he]; rfl
  refine ⟨?_, ?_, ?_⟩
  · intro habs
    have hnone : searchCapture "Task:".data out.data = none ∨
        searchCapture "Date:".data out.data = none ∨
        searchCapture "Time:".data out.data = none := by
      rcases habs with h | h | h
      · exact Or.inl (searchCapture_none_of_no_sub _ _ h)
      · exact Or.inr (Or.inl (searchCapture_none_of_no_sub _ _ h))
      · exact Or.inr (Or.inr (searchCapture_none_of_no_sub _ _ h))
    have herr : parse_ai_response st = { st with error := some (parseErrMsg incompleteInner) } := by
      cases hT : searchCapture "Task:".data out.data <;>
        cases hD : searchCapture "Date:".data out.data <;>
          cases hTm : searchCapture "Time:".data out.data <;>
            first
            | (simp [parse_ai_response, hse, ho, hne, hT, hD, hTm]; done)
            | (exfalso; rcases hnone with h0 | h0 | h0 <;> simp_all)
    refine ⟨herr, ?_, ?_⟩
    · intro offMin now
      rw [herr]
      simp [parse_datetime]
    · rw [herr]
      simp [nextNode, should_continue]
  · intro a b c hT hD hTm
    simp [parse_ai_response, hse, ho, hne, hT, hD, hTm, he]
  · intro n st2
    cases n <;> simp only [nextNode] <;> (try split) <;> decide

def sampleReply : String :=
  "Task: Meet John\nDeadline: Friday\nDuration: 30\nPriority: High\n\nScheduled Slot:\n - Date: Wednesday, 28 May 2025\n - Time: 3:00 PM - 3:30 PM\n - Reason: free slot"

def sampleParseState : SchedState :=
  { sentence := "Meet John on 28 May at 3 PM", output := some sampleReply,
    task_title := none, scheduled_date_str := none, scheduled_time_str := none,
    duration_minutes := some 60, start_dt := none, end_dt := none,
    hasService := false, event := none, created_event := none,
    parsed_priority := none, error := none }

theorem extraction_requires_labels_witness :
    (parse_ai_response sampleParseState).task_title =
      some (String.mk (stripChars "Meet John".data)) ∧
    (parse_ai_response sampleParseState).scheduled_date_str =
      some (String.mk (stripChars "Wednesday, 28 May 2025".data)) ∧
    (parse_ai_response sampleParseState).scheduled_time_str =
      some (String.mk (stripChars "3:00 PM - 3:30 PM".data)) ∧
    (parse_ai_response sampleParseState).error = none :=
  (extraction_requires_labels sampleParseState sampleReply rfl rfl (by decide)).2.1
    "Meet John".data "Wednesday, 28 May 2025".data "3:00 PM - 3:30 PM".data
    (by decide) (by decide) (by decide)

/-- C8: the parsed duration is the first integer following a `Duration:`
label when the numeric pattern matches somewhere, and defaults to 60 when
it is absent or non-numeric; the parsed priority is the trimmed text after
`Priority:` when present — stored without any validation against the
High/Normal/Low enum — and defaults to "Normal" when absent. -/
theorem duration_priority_defaults (st : SchedState) (out : String)
    (ho : st.output = some out) (he : st.error = none)
    (a b c : List Char)
    (hT : searchCapture "Task:".data out.data = some a)
    (hD : searchCapture "Date:".data out.data = some b)
    (hTm : searchCapture "Time:".data out.data = some c) :
    (parse_ai_response st).duration_minutes =
      some ((searchDuration out.data).getD 60) ∧
    (searchDuration out.data = none →
      (parse_ai_response st).duration_minutes = some 60) ∧
    (parse_ai_response st).parsed_priority =
      some (((searchCapture "Priority:".data out.data).map
        (fun p => String.mk (stripChars p))).getD "Normal") ∧
    (searchCapture "Priority:".data out.data = none →
      (parse_ai_response st).parsed_priority = some "Normal") := by
  have hse : st.error.isSome = false := by rw [he]; rfl
  have hne : out ≠ "" := by
    intro hq
    rw [hq] at hT
    exact Option.noConfusion (hT : (none : Option (List Char)) = some a)
  refine ⟨?_, ?_, ?_, ?_⟩
  · simp [parse_ai_response, hse, ho, hne, hT, hD, hTm]
  · intro hq
    simp [parse_ai_response, hse, ho, hne, hT, hD, hTm, hq]
  · simp [parse_ai_response, hse, ho, hne, hT, hD, hTm]
  · intro hq
    simp [parse_ai_response, hse, ho, hne, hT, hD, hTm, hq]

def samplePriorityReply : String :=
  "Task: T\nDate: 2025-05-28\nTime: 3:00 PM - 4:00 PM\nDuration: soon\nPriority: Urgent!!"

def samplePriorityState : SchedState :=
  { sentence := "x", output := some samplePriorityReply,
    task_title := none, scheduled_date_str := none, scheduled_time_str := none,
    duration_minutes := some 60, start_dt := none, end_dt := none,
    hasService := false, event := none, created_event := none,
    parsed_priority := none, error := none }

theorem duration_priority_defaults_witness :
    (parse_ai_response samplePriorityState).duration_minutes = some 60 ∧
    (parse_ai_response samplePriorityState).parsed_priority = some "Urgent!!" :=
  have h := duration_priority_defaults samplePriorityState samplePriorityReply rfl rfl
    "T".data "2025-05-28".data "3:00 PM - 4:00 PM".data
    (by decide) (by decide) (by decide)
  ⟨h.2.1 (by decide), h.2.2.1.trans (by decide)⟩

/-- C10: the weekday name in "Weekday, DD Month [YYYY]" dates is never
cross-checked: every weekday name — including the six wrong ones for
2025-05-28, a Wednesday — yields the same date, determined only by the
day/month/year components; and the yearless "Weekday, 29 February" never
parses for any current date, because each trial instantiates the candidate
date in the non-leap default year 1900 before the year inference runs. -/
theorem weekday_not_validated (today : PyDate) :
    (weekdayNames.all fun w =>
      parse_flexible_date today (w ++ ", 28 May 2025") == some ⟨2025, 5, 28⟩) = true ∧
    (weekdayNames.all fun w =>
      (parse_flexible_date today (w ++ ", 29 February")).isNone) = true :=
  ⟨rfl, rfl⟩

theorem error_short_circuits_witness :
    parse_ai_response sampleErrState = sampleErrState ∧
    parse_datetime 330 0 sampleErrState = sampleErrState ∧
    authenticate_google .success sampleErrState = sampleErrState ∧
    create_event sampleErrState = sampleErrState ∧
    schedule_event (.ok "evt123") sampleErrState = (sampleErrState, false) ∧
    should_continue sampleErrState = "error" ∧
    nextNode .process_ai sampleErrState = .error_handler ∧
    nextNode .parse_response sampleErrState = .error_handler ∧
    nextNode .parse_datetime_n sampleErrState = .error_handler ∧
    nextNode .authenticate sampleErrState = .error_handler ∧
    nextNode .create_event_n sampleErrState = .error_handler :=
  error_short_circuits sampleErrState "Error getting AI response: boom" 330 0
    .success (.ok "evt123") rfl

end Sched
